/-
Verification of the claudine-proxy OpenAI⇄Anthropic translation core.

Shallow embedding of the Go source (package `anthropicclaude` and the
`proxy` HTTP layer) into Lean 4, together with theorems settling the
specification claims about error normalization, finish-reason mapping,
tool-call translation, thinking configuration, and SSE stream framing.
-/
import Mathlib

set_option maxRecDepth 8192

namespace Claudine

/-! ## Error normalizer (`errors.go`)

`mapAnthropicErrorType` translates the Anthropic error taxonomy into
OpenAI-compatible error type strings. -/

/-- Embedding of `mapAnthropicErrorType` from `errors.go`
(switch on the Anthropic error-type string). -/
def mapAnthropicErrorType (anthropicType : String) : String :=
  match anthropicType with
  | "overloaded_error" => "server_error"
  | "rate_limit_error" => "rate_limit_error"
  | "invalid_request_error" => "invalid_request_error"
  | "request_too_large" => "invalid_request_error"
  | "authentication_error" => "authentication_error"
  | "permission_error" => "permission_denied"
  | "not_found_error" => "invalid_request_error"
  | "timeout_error" => "server_error"
  | "api_error" => "api_error"
  | "billing_error" => "insufficient_quota"
  | _ => "api_error"

/-- The Anthropic error-type strings that have their own `case` arm in
`mapAnthropicErrorType`'s switch. -/
def knownAnthropicErrorTypes : List String :=
  ["overloaded_error", "rate_limit_error", "invalid_request_error",
   "request_too_large", "authentication_error", "permission_error",
   "not_found_error", "timeout_error", "api_error", "billing_error"]

/-! ## HTTP status mapping (`json.go`) -/

/-- Embedding of the status switch in `writeJSONOpenAIError` (`json.go`):
OpenAI error type string → HTTP status code. -/
def statusForErrorType (errType : String) : Nat :=
  match errType with
  | "invalid_request_error" => 400
  | "authentication_error" => 401
  | "permission_denied" => 403
  | "rate_limit_error" => 429
  | "insufficient_quota" => 429
  | "server_error" => 500
  | "api_error" => 500
  | _ => 500

/-- The error-type strings with their own `case` arm in `writeJSONOpenAIError`. -/
def knownClientErrorTypes : List String :=
  ["invalid_request_error", "authentication_error", "permission_denied",
   "rate_limit_error", "insufficient_quota", "server_error", "api_error"]

/-! ## Finish-reason mapping (`response.go`) -/

/-- Embedding of `toFinishReason` (`response.go`): Anthropic stop reason →
OpenAI non-streaming finish reason. The default arm covers `pause_turn`
and every unknown value. -/
def toFinishReason (stopReason : String) : String :=
  match stopReason with
  | "end_turn" => "stop"
  | "max_tokens" => "length"
  | "stop_sequence" => "stop"
  | "tool_use" => "tool_calls"
  | "refusal" => "content_filter"
  | _ => "stop"

/-- Embedding of `toFinishReasonStreaming` (`response.go`): same switch,
returning the streaming-specific enum (identical string values). -/
def toFinishReasonStreaming (stopReason : String) : String :=
  match stopReason with
  | "end_turn" => "stop"
  | "max_tokens" => "length"
  | "stop_sequence" => "stop"
  | "tool_use" => "tool_calls"
  | "refusal" => "content_filter"
  | _ => "stop"

/-- The Anthropic stop reasons with their own `case` arm in `toFinishReason`. -/
def knownStopReasons : List String :=
  ["end_turn", "max_tokens", "stop_sequence", "tool_use", "refusal"]

/-! ## Request decode error handling (`chat_completions.go`)

`ServeHTTP` decodes the request body; a failure is classified by
`errors.As(err, &maxBytesErr)` into the body-too-large case versus any
other decode failure, and each produces an error envelope handed to
`writeJSONOpenAIError`, which derives the HTTP status from the envelope's
type via `statusForErrorType`. -/

/-- OpenAI-shaped error envelope (`types.Error`: `message` and `type`). -/
structure ErrorEnvelope where
  message : String
  typ : String
deriving DecidableEq, Repr

/-- Outcome of `json.NewDecoder(r.Body).Decode(&req)` failing in `ServeHTTP`:
either the wrapped `*http.MaxBytesError` from the size-limit reader
(with its configured byte limit), or any other decode error. -/
inductive DecodeError where
  | tooLarge (limit : Nat)
  | malformed
deriving DecidableEq, Repr

/-- Embedding of the decode-error branch of `ServeHTTP`
(`chat_completions.go` lines 28–48) composed with `writeJSONOpenAIError`:
returns the envelope written and the HTTP status used. `http.StatusText 413`
is `"Request Entity Too Large"` and `http.StatusText 400` is `"Bad Request"`. -/
def handleDecodeError (e : DecodeError) : ErrorEnvelope × Nat :=
  match e with
  | .tooLarge _ =>
      let env : ErrorEnvelope := ⟨"Request Entity Too Large", "invalid_request_error"⟩
      (env, statusForErrorType env.typ)
  | .malformed =>
      let env : ErrorEnvelope := ⟨"Bad Request", "invalid_request_error"⟩
      (env, statusForErrorType env.typ)

/-! ## Tool choice translation (`fromToolChoiceOption`) -/

/-- The client `tool_choice` union (`types.ChatCompletionToolChoiceOption`):
a bare string, a named function choice, a named custom choice, or the
allowed-tools array form. -/
inductive ToolChoiceOption where
  | str (s : String)
  | namedFunction (name : String)
  | namedCustom (name : String)
  | allowedTools
deriving DecidableEq, Repr

/-- The Anthropic `ToolChoiceUnionParam` variants set by `fromToolChoiceOption`,
named after the Go union fields `OfNone`/`OfAuto`/`OfAny`/`OfTool`. -/
inductive AnthropicToolChoice where
  | ofNone
  | ofAuto
  | ofAny
  | ofTool (name : String)
deriving DecidableEq, Repr

/-- Embedding of `fromToolChoiceOption`: a `nil` pointer (absent tool_choice)
defaults to auto; the string form switches on none/auto/required with an
error default; a named function choice becomes the single-tool restriction;
named custom and allowed-tools fail as unsupported. -/
def fromToolChoiceOption (toolChoice : Option ToolChoiceOption) :
    Except String AnthropicToolChoice :=
  match toolChoice with
  | Option.none => .ok .ofAuto
  | some (.str s) =>
      match s with
      | "none" => .ok .ofNone
      | "auto" => .ok .ofAuto
      | "required" => .ok .ofAny
      | _ => .error ("unsupported tool choice string: " ++ s)
  | some (.namedFunction name) => .ok (.ofTool name)
  | some (.namedCustom _) => .error "custom tools not supported by Anthropic Claude"
  | some .allowedTools =>
      .error "allowed_tools choice not supported by Anthropic Claude (only single tool restriction via named choice)"

/-! ## Buffered tool-call translation (`toChatCompletionMessageToolCalls`) -/

/-- Upstream response content blocks (`anthropic.ContentBlockUnion`), the
variants relevant to `toChatCompletionMessageToolCalls`: the switch there
has a single `case anthropic.ToolUseBlock`, so text and thinking blocks
are skipped. A tool-use block carries the upstream id, the function name,
and the raw JSON bytes of `input` (empty string when the input is empty). -/
inductive ContentBlockUnion where
  | textBlock (text : String)
  | thinkingBlock (thinking : String)
  | toolUse (id name input : String)
deriving DecidableEq, Repr

/-- One OpenAI tool-call entry (`types.ChatCompletionMessageToolCall`). -/
structure ChatToolCall where
  id : String
  typ : String
  name : String
  arguments : String
deriving DecidableEq, Repr

/-- Embedding of `newToolCallID` applied to one freshly drawn UUID string
`u`: `fmt.Sprintf("call_%s", uuid.New().String()[:8])`. -/
def newToolCallID (u : String) : String :=
  "call_" ++ u.take 8

/-- The loop body of `toChatCompletionMessageToolCalls`: walks the content
blocks; each tool-use block yields one entry with the upstream id (or a
generated one when the id is empty — `uuid k` is the `k`-th UUID drawn by
`uuid.New()`), type `"function"`, the upstream name, and arguments equal to
the raw input bytes when non-empty, else `"{}"`. -/
def toolCallsLoop (uuid : Nat → String) : List ContentBlockUnion → Nat → List ChatToolCall
  | [], _ => []
  | .toolUse id name input :: rest, k =>
      let toolCallID := if id = "" then newToolCallID (uuid k) else id
      let nextK := if id = "" then k + 1 else k
      let arguments := if input.length > 0 then input else "{}"
      ⟨toolCallID, "function", name, arguments⟩ :: toolCallsLoop uuid rest nextK
  | .textBlock _ :: rest, k => toolCallsLoop uuid rest k
  | .thinkingBlock _ :: rest, k => toolCallsLoop uuid rest k

/-- Embedding of `toChatCompletionMessageToolCalls` (`part_005`): `nil`
(here `Option.none`) when no tool-use block produced an entry, otherwise
the accumulated entries. -/
def toChatCompletionMessageToolCalls (uuid : Nat → String)
    (content : List ContentBlockUnion) : Option (List ChatToolCall) :=
  let items := toolCallsLoop uuid content 0
  if items.isEmpty then Option.none else some items

/-- The tool-use blocks of a content list, as (id, name, input) triples,
in block order. -/
def toolUseBlocks (content : List ContentBlockUnion) : List (String × String × String) :=
  content.filterMap fun b =>
    match b with
    | .toolUse id name input => some (id, name, input)
    | _ => Option.none

/-- Per the spec's words (§4.2): one entry per upstream tool-use block in
order, with `type="function"`, the upstream id (generating
`call_<8-char UUID-prefix>` when upstream omits it, drawing UUIDs in
order starting at `k`), the upstream name, and arguments equal to the JSON
encoding of the input, or `"{}"` when the input is empty. -/
def specToolCallEntries (uuid : Nat → String) (k : Nat) :
    List (String × String × String) → List ChatToolCall
  | [] => []
  | (id, name, input) :: rest =>
      { id := if id = "" then "call_" ++ (uuid k).take 8 else id
        typ := "function"
        name := name
        arguments := if input = "" then "{}" else input }
        :: specToolCallEntries uuid (if id = "" then k + 1 else k) rest

/-! ## Thinking configuration (`reasoning.go`) -/

/-- Anthropic's `ThinkingConfigParamUnion` variants, named after the Go
union fields: enabled with a token budget, or disabled. An unset union
(`GetType() == nil`) is `Option.none` at use sites. -/
inductive ThinkingConfig where
  | ofEnabled (budgetTokens : Int)
  | ofDisabled
deriving DecidableEq, Repr

/-- The `extra_body.thinking` object as `buildThinking` reads it:
`typeVal` is the `"type"` entry when it is a string, `budgetTokens` the
`"budget_tokens"` entry when it is a number (Go reads `float64` and casts
to `int64`). An `extra_body` without a well-formed `thinking` map is
`Option.none` at the use site. -/
structure ExtraThinking where
  typeVal : Option String
  budgetTokens : Option Int
deriving DecidableEq, Repr

/-- The first switch of `buildThinking`: the `reasoning_effort` string is
mapped to an enabled thinking config with a fixed budget; unknown values
(and an absent field) leave thinking unset. -/
def effortThinking (reasoningEffort : Option String) : Option ThinkingConfig :=
  match reasoningEffort with
  | some "low" => some (.ofEnabled 1024)
  | some "medium" => some (.ofEnabled 8192)
  | some "high" => some (.ofEnabled 24576)
  | _ => Option.none

/-- Embedding of `buildThinking` (`reasoning.go`): the `reasoning_effort`
mapping, then the `extra_body.thinking` override: `enabled` with a budget
overrides; `enabled` without a budget keeps the prior config but fails when
none was set; `disabled` forces disabled; unknown type values are ignored. -/
def buildThinking (reasoningEffort : Option String)
    (extraThinking : Option ExtraThinking) : Except String (Option ThinkingConfig) :=
  let thinking := effortThinking reasoningEffort
  match extraThinking with
  | Option.none => .ok thinking
  | some cfg =>
      match cfg.typeVal with
      | some "enabled" =>
          match cfg.budgetTokens with
          | some n => .ok (some (.ofEnabled n))
          | Option.none =>
              if thinking = Option.none then
                .error "extra_body.thinking.type is 'enabled' but budget_tokens not specified and no reasoning_effort set"
              else
                .ok thinking
      | some "disabled" => .ok (some .ofDisabled)
      | _ => .ok thinking

/-! ## Error normalization entry point (`toChatCompletionError`) -/

/-- The parsed body of an Anthropic error response
(`anthropic.ErrorResponse.Error`): the error type and message. -/
structure AnthropicErrInfo where
  typ : String
  message : String
deriving DecidableEq, Repr

/-- A Go `error` value as `toChatCompletionError` discriminates it:
either something `errors.As` recognizes as `*anthropic.Error` (carrying
its `RawJSON()` body and its `Error()` string), or any other error
(carrying only its `Error()` string). -/
inductive GoError where
  | anthropicAPI (rawJSON : String) (errString : String)
  | plain (errString : String)
deriving DecidableEq, Repr

/-- The constant the Anthropic SDK prepends to streaming errors
(Go: `streamingErrorPrefix`). -/
def streamingErrorMarker : String :=
  "received error while streaming: "

/-- Embedding of `toChatCompletionError` (`part_006`), parameterized over
`parseErrorResponseJSON`'s outcome (`Option.none` models a JSON parse
failure). A `nil` error maps to `nil`; an `*anthropic.Error` is parsed from
its raw JSON (falling back to `api_error` with the error's own string); any
other error whose string bears the streaming marker is parsed from the
remainder; everything else is wrapped as a generic `server_error`. -/
def toChatCompletionError (parseErrorResponseJSON : String → Option AnthropicErrInfo)
    (err : Option GoError) : Option ErrorEnvelope :=
  match err with
  | Option.none => Option.none
  | some (.anthropicAPI rawJSON errString) =>
      match parseErrorResponseJSON rawJSON with
      | some info => some ⟨info.message, mapAnthropicErrorType info.typ⟩
      | Option.none => some ⟨errString, "api_error"⟩
  | some (.plain errString) =>
      if errString.startsWith streamingErrorMarker then
        match parseErrorResponseJSON (errString.drop streamingErrorMarker.length) with
        | some info => some ⟨info.message, mapAnthropicErrorType info.typ⟩
        | Option.none => some ⟨errString, "server_error"⟩
      else
        some ⟨errString, "server_error"⟩

/-! ## Stream translator (spec §4.3) and SSE endpoint loop (`streamResponse`)

The stream-translation fold and the SSE writer are not among the source
files available under `src/`; only their callers
(`CreateChatCompletionsHandler.streamResponse`) and the spec describe
them. The fold below is modelled from the spec; the handler loop is
embedded from `chat_completions.go`. -/

/-- One `delta.tool_calls` entry of an OpenAI chunk: client tool-call
index, optional id and function name (present only on the opening chunk),
and an arguments fragment. -/
structure ToolCallDelta where
  index : Nat
  id : Option String
  name : Option String
  arguments : String
deriving DecidableEq, Repr

/-- Modelled from the spec: a *ClientChunk* (§3, §4.3) — the single
choice's `delta` (`role`, `content`, `tool_calls`) together with the
optional `finish_reason` and the optional usage pair (input, output
tokens) attached to the terminal chunk. Shared `id`/`model`/`created`
metadata is not tracked here. -/
structure StreamChunk where
  role : Option String
  content : Option String
  toolCalls : List ToolCallDelta
  finishReason : Option String
  usage : Option (Nat × Nat)
deriving DecidableEq, Repr

/-- Modelled from the spec: the `active_block_kind` component of the fold
state (§4.3): the kind of the currently open content block, or none. -/
inductive ActiveBlockKind where
  | inactive
  | text
  | thinking
  | toolUse
deriving DecidableEq, Repr

/-- Modelled from the spec: the per-stream fold state (§4.3) — the
upstream-block-index → client-tool-index map, the next tool index, the
active block kind, the recorded final stop reason, and accumulated usage. -/
structure FoldState where
  active : ActiveBlockKind
  blockToTool : List (Nat × Nat)
  nextToolIndex : Nat
  finalStopReason : String
  inputTokens : Nat
  outputTokens : Nat
deriving DecidableEq, Repr

/-- The fold state at stream start. -/
def initialFoldState : FoldState :=
  ⟨.inactive, [], 0, "", 0, 0⟩

/-- Modelled from the spec: the upstream SSE events (§3, §4.3) that reach
the chunk fold. An upstream `error` event terminates the stream through
the error path of the orchestrator and never reaches the fold, so it is
not a constructor here. -/
inductive AnthropicEvent where
  | messageStart (inputTokens : Nat)
  | contentBlockStartText (idx : Nat)
  | contentBlockStartThinking (idx : Nat)
  | contentBlockStartToolUse (idx : Nat) (id name : String)
  | contentBlockDeltaText (idx : Nat) (text : String)
  | contentBlockDeltaThinking (idx : Nat) (text : String)
  | contentBlockDeltaInputJson (idx : Nat) (fragment : String)
  | contentBlockStop (idx : Nat)
  | messageDelta (stopReason : String) (outputTokens : Nat)
  | messageStop
  | ping
deriving DecidableEq, Repr

/-- Modelled from the spec: the event-handling table of §4.3, missing from
`src/` — one upstream event updates the fold state and emits zero or more
chunks. `message_start` emits the role chunk; a tool-use block start
allocates the next client tool index and emits its opening chunk; text and
input-json deltas emit content/arguments chunks; thinking is dropped;
`message_delta` records the stop reason and usage; `message_stop` emits
the terminal chunk with the mapped finish reason and the usage. -/
def stepEvent (s : FoldState) (e : AnthropicEvent) : FoldState × List StreamChunk :=
  match e with
  | .messageStart inTok =>
      ({ s with inputTokens := inTok },
       [{ role := some "assistant", content := Option.none, toolCalls := [],
          finishReason := Option.none, usage := Option.none }])
  | .contentBlockStartText _ => ({ s with active := .text }, [])
  | .contentBlockStartThinking _ => ({ s with active := .thinking }, [])
  | .contentBlockStartToolUse idx id name =>
      let t := s.nextToolIndex
      ({ s with
          active := .toolUse,
          blockToTool := ((idx, t) :: s.blockToTool),
          nextToolIndex := t + 1 },
       [{ role := Option.none, content := Option.none,
          toolCalls := [⟨t, some id, some name, ""⟩],
          finishReason := Option.none, usage := Option.none }])
  | .contentBlockDeltaText _ text =>
      (s, [{ role := Option.none, content := some text, toolCalls := [],
             finishReason := Option.none, usage := Option.none }])
  | .contentBlockDeltaThinking _ _ => (s, [])
  | .contentBlockDeltaInputJson idx frag =>
      let t := (s.blockToTool.lookup idx).getD 0
      (s, [{ role := Option.none, content := Option.none,
             toolCalls := [⟨t, Option.none, Option.none, frag⟩],
             finishReason := Option.none, usage := Option.none }])
  | .contentBlockStop _ => ({ s with active := .inactive }, [])
  | .messageDelta stopReason outTok =>
      ({ s with finalStopReason := stopReason, outputTokens := outTok }, [])
  | .messageStop =>
      (s, [{ role := Option.none, content := Option.none, toolCalls := [],
             finishReason := some (toFinishReasonStreaming s.finalStopReason),
             usage := some (s.inputTokens, s.outputTokens) }])
  | .ping => (s, [])

/-- Modelled from the spec: the whole stream fold (§4.3) — threading the
state through the event sequence and concatenating the emitted chunks. -/
def foldEvents (s : FoldState) : List AnthropicEvent → List StreamChunk
  | [] => []
  | e :: es =>
      let step := stepEvent s e
      step.2 ++ foldEvents step.1 es

/-- One (chunk, error) pair yielded by the `iter.Seq2` stream consumed by
`streamResponse`: a chunk, an error recognized by
`errors.As(err, &errorResponse)` as an `*openaiadapter.ErrorResponse`, or
any other error. -/
inductive StreamItem where
  | chunk (c : StreamChunk)
  | errResponse (e : ErrorEnvelope)
  | errOther (msg : String)
deriving DecidableEq, Repr

/-- The error envelope `streamResponse` would emit for a stream item, if
any: the envelope itself for an `*ErrorResponse`, the `api_error` fallback
wrapping for any other error, nothing for a chunk. -/
def StreamItem.errEnvelope? : StreamItem → Option ErrorEnvelope
  | .errResponse e => some e
  | .errOther msg => some ⟨msg, "api_error"⟩
  | .chunk _ => Option.none

/-- One call made by `streamResponse` on the SSE writer. Modelled from the
spec: the writer itself is absent from `src/`; per §4.5 it renders
`.event n` as `event: <n>\n`, a data write as a `data: <json>\n\n` frame
(`dataChunk`/`dataError` record which value was encoded), and `.raw s` as
the literal frame `data: <s>\n\n`, flushing each frame. -/
inductive SSEWrite where
  | event (name : String)
  | dataChunk (c : StreamChunk)
  | dataError (e : ErrorEnvelope)
  | raw (s : String)
deriving DecidableEq, Repr

/-- Embedding of the loop of `CreateChatCompletionsHandler.streamResponse`
(`chat_completions.go` lines 128–179): at each iteration `i` the context is
checked first (`ctxErr i` true aborts with no further writes); an error
item writes `event: error` then the envelope (the fallback wrapping for
unrecognized errors) and returns; a chunk is written as a data frame; when
the iterator is exhausted the `[DONE]` marker is written. -/
def streamResponseWrites (ctxErr : Nat → Bool) : List StreamItem → Nat → List SSEWrite
  | [], _ => [.raw "[DONE]"]
  | item :: rest, i =>
      if ctxErr i then []
      else
        match item with
        | .errResponse e => [.event "error", .dataError e]
        | .errOther msg => [.event "error", .dataError ⟨msg, "api_error"⟩]
        | .chunk c => .dataChunk c :: streamResponseWrites ctxErr rest (i + 1)

end Claudine

namespace Claudine

/-- C1: the error normalizer's type table maps each Anthropic error type
exactly as the spec's table states, and every other type to `api_error`. -/
theorem mapAnthropicErrorType_spec :
    mapAnthropicErrorType "overloaded_error" = "server_error" ∧
    mapAnthropicErrorType "rate_limit_error" = "rate_limit_error" ∧
    mapAnthropicErrorType "invalid_request_error" = "invalid_request_error" ∧
    mapAnthropicErrorType "request_too_large" = "invalid_request_error" ∧
    mapAnthropicErrorType "authentication_error" = "authentication_error" ∧
    mapAnthropicErrorType "permission_error" = "permission_denied" ∧
    mapAnthropicErrorType "not_found_error" = "invalid_request_error" ∧
    mapAnthropicErrorType "timeout_error" = "server_error" ∧
    mapAnthropicErrorType "api_error" = "api_error" ∧
    mapAnthropicErrorType "billing_error" = "insufficient_quota" ∧
    ∀ t, t ∉ knownAnthropicErrorTypes → mapAnthropicErrorType t = "api_error" := by
  refine ⟨rfl, rfl, rfl, rfl, rfl, rfl, rfl, rfl, rfl, rfl, ?_⟩
  intro t ht
  simp only [knownAnthropicErrorTypes, List.mem_cons, List.not_mem_nil, or_false,
    not_or] at ht
  obtain ⟨h1, h2, h3, h4, h5, h6, h7, h8, h9, h10⟩ := ht
  unfold mapAnthropicErrorType
  split <;> simp_all

/-- Witness for C1: the default arm at the concrete unknown type "mystery_error". -/
theorem mapAnthropicErrorType_spec_witness :
    mapAnthropicErrorType "mystery_error" = "api_error" :=
  mapAnthropicErrorType_spec.2.2.2.2.2.2.2.2.2.2 "mystery_error" (by decide)

/-- C3: the pre-body error writer derives the HTTP status solely from the
client error type, per the spec's table, with 500 for every other type. -/
theorem statusForErrorType_spec :
    statusForErrorType "invalid_request_error" = 400 ∧
    statusForErrorType "authentication_error" = 401 ∧
    statusForErrorType "permission_denied" = 403 ∧
    statusForErrorType "rate_limit_error" = 429 ∧
    statusForErrorType "insufficient_quota" = 429 ∧
    statusForErrorType "server_error" = 500 ∧
    statusForErrorType "api_error" = 500 ∧
    ∀ t, t ∉ knownClientErrorTypes → statusForErrorType t = 500 := by
  refine ⟨rfl, rfl, rfl, rfl, rfl, rfl, rfl, ?_⟩
  intro t ht
  simp only [knownClientErrorTypes, List.mem_cons, List.not_mem_nil, or_false,
    not_or] at ht
  obtain ⟨h1, h2, h3, h4, h5, h6, h7⟩ := ht
  unfold statusForErrorType
  split <;> simp_all

/-- Witness for C3: the default arm at the concrete unknown type "weird_type". -/
theorem statusForErrorType_spec_witness :
    statusForErrorType "weird_type" = 500 :=
  statusForErrorType_spec.2.2.2.2.2.2.2 "weird_type" (by decide)

/-- C4: both the buffered and the streaming finish-reason mappings follow
the spec's table (`end_turn`→`stop`, `max_tokens`→`length`,
`stop_sequence`→`stop`, `tool_use`→`tool_calls`, `refusal`→`content_filter`,
`pause_turn` and every other value →`stop`), and the two mappings agree on
every input. -/
theorem toFinishReason_spec :
    toFinishReason "end_turn" = "stop" ∧
    toFinishReason "max_tokens" = "length" ∧
    toFinishReason "stop_sequence" = "stop" ∧
    toFinishReason "tool_use" = "tool_calls" ∧
    toFinishReason "refusal" = "content_filter" ∧
    toFinishReason "pause_turn" = "stop" ∧
    (∀ s, s ∉ knownStopReasons → toFinishReason s = "stop") ∧
    ∀ s, toFinishReasonStreaming s = toFinishReason s := by
  refine ⟨rfl, rfl, rfl, rfl, rfl, rfl, ?_, ?_⟩
  · intro s hs
    simp only [knownStopReasons, List.mem_cons, List.not_mem_nil, or_false,
      not_or] at hs
    obtain ⟨h1, h2, h3, h4, h5⟩ := hs
    unfold toFinishReason
    split <;> simp_all
  · intro s
    unfold toFinishReason toFinishReasonStreaming
    rfl

/-- Witness for C4: the default arm at the concrete value "pause_turn"
(and agreement of the two mappings there). -/
theorem toFinishReason_spec_witness :
    toFinishReason "some_future_reason" = "stop" ∧
    toFinishReasonStreaming "pause_turn" = toFinishReason "pause_turn" :=
  ⟨toFinishReason_spec.2.2.2.2.2.2.1 "some_future_reason" (by decide),
   toFinishReason_spec.2.2.2.2.2.2.2 "pause_turn"⟩

/-- C2 counterexample: on a body-too-large decode failure the handler does
NOT respond with HTTP status 413 — `writeJSONOpenAIError` derives the
status from the envelope type `invalid_request_error`, which yields 400. -/
theorem handleDecodeError_tooLarge_not_413 :
    ¬ ((handleDecodeError (.tooLarge 1048576)).2 = 413) := by
  decide

/-- C2 (amended): on a body-too-large decode failure the handler writes an
envelope of type `invalid_request_error` with message
"Request Entity Too Large", and the HTTP status is 400 (derived from the
error type), not 413. -/
theorem handleDecodeError_tooLarge_spec (limit : Nat) :
    handleDecodeError (.tooLarge limit)
      = (⟨"Request Entity Too Large", "invalid_request_error"⟩, 400) := by
  rfl

/-- C6: the tool-choice translation maps "none"→none, "auto"→auto,
"required"→any, a named function to the single-tool restriction with that
name, allowed-tools and named-custom to unsupported-feature errors, and an
absent tool_choice to auto. -/
theorem fromToolChoiceOption_spec :
    fromToolChoiceOption (some (.str "none")) = .ok .ofNone ∧
    fromToolChoiceOption (some (.str "auto")) = .ok .ofAuto ∧
    fromToolChoiceOption (some (.str "required")) = .ok .ofAny ∧
    (∀ name, fromToolChoiceOption (some (.namedFunction name)) = .ok (.ofTool name)) ∧
    (∃ msg, fromToolChoiceOption (some .allowedTools) = .error msg) ∧
    (∀ name, ∃ msg, fromToolChoiceOption (some (.namedCustom name)) = .error msg) ∧
    fromToolChoiceOption Option.none = .ok .ofAuto := by
  refine ⟨rfl, rfl, rfl, fun name => rfl, ⟨_, rfl⟩, fun name => ⟨_, rfl⟩, rfl⟩

/-- The `arguments` default of the tool-call loop, written with the Go
guard `len(input) > 0`, agrees with the spec's "or `"{}"` if empty". -/
theorem argumentsDefault_eq (input : String) :
    (if input.length > 0 then input else "{}") = (if input = "" then "{}" else input) := by
  obtain ⟨data⟩ := input
  by_cases h : data = []
  · subst h; decide
  · have hs : ¬(String.mk data = "") := fun heq => h (congrArg String.data heq)
    have hl : (String.mk data).length > 0 := by
      simpa [String.mk_length] using List.length_pos.mpr h
    rw [if_pos hl, if_neg hs]

/-- The stateful loop of `toChatCompletionMessageToolCalls` equals the
spec-side entry builder applied to the filtered tool-use blocks. -/
theorem toolCallsLoop_eq_specEntries (uuid : Nat → String) :
    ∀ (content : List ContentBlockUnion) (k : Nat),
      toolCallsLoop uuid content k = specToolCallEntries uuid k (toolUseBlocks content) := by
  intro content
  induction content with
  | nil => intro k; rfl
  | cons b rest ih =>
      intro k
      cases b with
      | textBlock t =>
          simpa [toolCallsLoop, toolUseBlocks, List.filterMap_cons] using ih k
      | thinkingBlock t =>
          simpa [toolCallsLoop, toolUseBlocks, List.filterMap_cons] using ih k
      | toolUse id name input =>
          simp [toolCallsLoop, toolUseBlocks, List.filterMap_cons, specToolCallEntries,
            newToolCallID, argumentsDefault_eq, ih]

/-- C5: the buffered translator's tool-call list is exactly one entry per
tool-use block in block order — type `"function"`, the upstream id (or
`call_<8-char UUID prefix>` generated from the next fresh UUID when the
upstream id is empty), the upstream name, and arguments equal to the JSON
encoding of the input (`"{}"` when the input is empty) — and the field is
absent (`nil`) when the content holds no tool-use block. -/
theorem toChatCompletionMessageToolCalls_spec (uuid : Nat → String)
    (content : List ContentBlockUnion) :
    toChatCompletionMessageToolCalls uuid content =
      if toolUseBlocks content = [] then Option.none
      else some (specToolCallEntries uuid 0 (toolUseBlocks content)) := by
  unfold toChatCompletionMessageToolCalls
  rw [toolCallsLoop_eq_specEntries]
  cases htus : toolUseBlocks content with
  | nil => simp [specToolCallEntries]
  | cons t ts =>
      obtain ⟨id, name, input⟩ := t
      simp [specToolCallEntries]

/-- C7: the thinking configuration follows the spec — `low`/`medium`/`high`
map to budgets 1024/8192/24576; unknown efforts leave thinking unset; an
`extra_body.thinking` of `{type:"enabled", budget_tokens:N}` overrides the
budget with `N`; `{type:"enabled"}` without a budget fails when no prior
effort set a budget and keeps the prior budget otherwise; and
`{type:"disabled"}` forces thinking disabled. -/
theorem buildThinking_spec :
    buildThinking (some "low") Option.none = .ok (some (.ofEnabled 1024)) ∧
    buildThinking (some "medium") Option.none = .ok (some (.ofEnabled 8192)) ∧
    buildThinking (some "high") Option.none = .ok (some (.ofEnabled 24576)) ∧
    (∀ e, e ∉ (["low", "medium", "high"] : List String) →
        buildThinking (some e) Option.none = .ok Option.none) ∧
    (∀ eff n, buildThinking eff (some ⟨some "enabled", some n⟩) = .ok (some (.ofEnabled n))) ∧
    (∀ eff, buildThinking eff Option.none = .ok Option.none →
        ∃ msg, buildThinking eff (some ⟨some "enabled", Option.none⟩) = .error msg) ∧
    (∀ eff b, buildThinking eff Option.none = .ok (some (.ofEnabled b)) →
        buildThinking eff (some ⟨some "enabled", Option.none⟩) = .ok (some (.ofEnabled b))) ∧
    (∀ eff bt, buildThinking eff (some ⟨some "disabled", bt⟩) = .ok (some .ofDisabled)) := by
  refine ⟨rfl, rfl, rfl, ?_, fun eff n => rfl, ?_, ?_, fun eff bt => rfl⟩
  · intro e he
    simp only [List.mem_cons, List.not_mem_nil, or_false, not_or] at he
    obtain ⟨h1, h2, h3⟩ := he
    simp only [buildThinking]
    unfold effortThinking
    split <;> simp_all
  · intro eff h
    have heff : effortThinking eff = Option.none := by
      simpa [buildThinking] using h
    exact ⟨"extra_body.thinking.type is 'enabled' but budget_tokens not specified and no reasoning_effort set",
      by simp [buildThinking, heff]⟩
  · intro eff b h
    have heff : effortThinking eff = some (.ofEnabled b) := by
      simpa [buildThinking] using h
    simp [buildThinking, heff]

/-- Witness for C7: an unknown effort leaves thinking unset and makes a
budget-less `{type:"enabled"}` fail, while a prior `medium` effort lets it
keep budget 8192. -/
theorem buildThinking_spec_witness :
    buildThinking (some "turbo") Option.none = .ok Option.none ∧
    (∃ msg, buildThinking (some "turbo") (some ⟨some "enabled", Option.none⟩) = .error msg) ∧
    buildThinking (some "medium") (some ⟨some "enabled", Option.none⟩)
      = .ok (some (.ofEnabled 8192)) :=
  ⟨buildThinking_spec.2.2.2.1 "turbo" (by decide),
   buildThinking_spec.2.2.2.2.2.1 (some "turbo")
     (buildThinking_spec.2.2.2.1 "turbo" (by decide)),
   buildThinking_spec.2.2.2.2.2.2.1 (some "medium") 8192 rfl⟩

/-- The range of the Anthropic→OpenAI error-type mapping is exactly the
seven client-facing error types known to the status writer. -/
theorem mapAnthropicErrorType_mem (t : String) :
    mapAnthropicErrorType t ∈ knownClientErrorTypes := by
  unfold mapAnthropicErrorType
  split <;> decide

/-- C10: the error normalizer returns `nil` iff its input error is `nil`;
every non-nil input yields an envelope whose type is one of the seven
client-facing types; and an input that is neither an `*anthropic.Error`
nor an error string bearing the streaming-error marker becomes a
`server_error` carrying the input error's own message. -/
theorem toChatCompletionError_spec (parse : String → Option AnthropicErrInfo) :
    toChatCompletionError parse Option.none = Option.none ∧
    (∀ e, toChatCompletionError parse (some e) ≠ Option.none) ∧
    (∀ e env, toChatCompletionError parse (some e) = some env →
        env.typ ∈ knownClientErrorTypes) ∧
    (∀ msg, msg.startsWith streamingErrorMarker = false →
        toChatCompletionError parse (some (.plain msg)) = some ⟨msg, "server_error"⟩) := by
  refine ⟨rfl, ?_, ?_, ?_⟩
  · intro e
    cases e with
    | anthropicAPI raw s =>
        cases hp : parse raw <;> simp [toChatCompletionError, hp]
    | plain s =>
        by_cases hs : s.startsWith streamingErrorMarker
        · cases hp : parse (s.drop streamingErrorMarker.length) <;>
            simp [toChatCompletionError, hs, hp]
        · simp [toChatCompletionError, hs]
  · intro e env h
    cases e with
    | anthropicAPI raw s =>
        cases hp : parse raw with
        | none =>
            simp [toChatCompletionError, hp] at h
            simp [← h, knownClientErrorTypes]
        | some info =>
            simp [toChatCompletionError, hp] at h
            simp [← h, mapAnthropicErrorType_mem]
    | plain s =>
        by_cases hs : s.startsWith streamingErrorMarker
        · cases hp : parse (s.drop streamingErrorMarker.length) with
          | none =>
              simp [toChatCompletionError, hs, hp] at h
              simp [← h, knownClientErrorTypes]
          | some info =>
              simp [toChatCompletionError, hs, hp] at h
              simp [← h, mapAnthropicErrorType_mem]
        · simp [toChatCompletionError, hs] at h
          simp [← h, knownClientErrorTypes]
  · intro msg hm
    simp [toChatCompletionError, hm]

/-- Witness for C10: a transport error ("dial tcp: timeout", no streaming
marker) is wrapped as `server_error` with its own message. -/
theorem toChatCompletionError_spec_witness :
    toChatCompletionError (fun _ => Option.none) (some (.plain "dial tcp: timeout"))
      = some ⟨"dial tcp: timeout", "server_error"⟩ :=
  (toChatCompletionError_spec (fun _ => Option.none)).2.2.2 "dial tcp: timeout" (by decide)

/-- Every event other than `message_stop` emits only chunks whose
`finish_reason` is empty. -/
theorem stepEvent_finishReason_none (s : FoldState) (e : AnthropicEvent)
    (he : e ≠ .messageStop) :
    ∀ c ∈ (stepEvent s e).2, c.finishReason = Option.none := by
  intro c hc
  cases e <;> simp_all [stepEvent]

/-- Processing a `message_stop`-free prefix and then `message_stop` yields
a body of finish-free chunks followed by one terminal chunk with a
non-empty finish reason, from any fold state. -/
theorem foldEvents_append_messageStop (es : List AnthropicEvent) :
    ∀ (s : FoldState), AnthropicEvent.messageStop ∉ es →
      ∃ body fin, foldEvents s (es ++ [.messageStop]) = body ++ [fin] ∧
        (∀ c ∈ body, c.finishReason = Option.none) ∧
        fin.finishReason.isSome = true := by
  induction es with
  | nil =>
      intro s _
      exact ⟨[], ⟨Option.none, Option.none, [],
        some (toFinishReasonStreaming s.finalStopReason),
        some (s.inputTokens, s.outputTokens)⟩,
        by simp [foldEvents, stepEvent], by simp, by simp⟩
  | cons e es ih =>
      intro s h
      simp only [List.mem_cons, not_or] at h
      obtain ⟨body, fin, heq, hbody, hfin⟩ := ih (stepEvent s e).1 h.2
      refine ⟨(stepEvent s e).2 ++ body, fin, ?_, ?_, hfin⟩
      · simp only [List.cons_append, foldEvents, List.append_eq, heq, List.append_assoc]
      · intro c hc
        rcases List.mem_append.mp hc with hc | hc
        · exact stepEvent_finishReason_none s e (fun hee => h.1 (hee ▸ rfl)) c hc
        · exact hbody c hc

/-- C9: for every upstream event sequence whose single `message_stop` is
its last event, the stream translator emits exactly one chunk with a
non-empty `finish_reason`, and that chunk is the last chunk of the
stream. -/
theorem streamFold_one_finishReason (es : List AnthropicEvent)
    (h : AnthropicEvent.messageStop ∉ es) :
    ∃ body fin, foldEvents initialFoldState (es ++ [.messageStop]) = body ++ [fin] ∧
      (∀ c ∈ body, c.finishReason = Option.none) ∧
      fin.finishReason.isSome = true ∧
      ((foldEvents initialFoldState (es ++ [.messageStop])).filter
          (fun c => c.finishReason.isSome)).length = 1 := by
  obtain ⟨body, fin, heq, hbody, hfin⟩ := foldEvents_append_messageStop es initialFoldState h
  refine ⟨body, fin, heq, hbody, hfin, ?_⟩
  rw [heq, List.filter_append]
  have hb : body.filter (fun c => c.finishReason.isSome) = [] := by
    rw [List.filter_eq_nil_iff]
    intro c hc
    simp [hbody c hc]
  simp [hb, List.filter, hfin]

/-- Witness for C9: the spec's S3 scenario (role chunk, two text deltas,
`end_turn`) emits its single finish-reason chunk last. -/
theorem streamFold_one_finishReason_witness :
    ∃ body fin,
      foldEvents initialFoldState
          ([.messageStart 2, .contentBlockStartText 0, .contentBlockDeltaText 0 "he",
            .contentBlockDeltaText 0 "llo", .contentBlockStop 0,
            .messageDelta "end_turn" 5] ++ [.messageStop]) = body ++ [fin] ∧
      (∀ c ∈ body, c.finishReason = Option.none) ∧
      fin.finishReason.isSome = true ∧
      ((foldEvents initialFoldState
          ([.messageStart 2, .contentBlockStartText 0, .contentBlockDeltaText 0 "he",
            .contentBlockDeltaText 0 "llo", .contentBlockStop 0,
            .messageDelta "end_turn" 5] ++ [.messageStop])).filter
          (fun c => c.finishReason.isSome)).length = 1 :=
  streamFold_one_finishReason
    [.messageStart 2, .contentBlockStartText 0, .contentBlockDeltaText 0 "he",
     .contentBlockDeltaText 0 "llo", .contentBlockStop 0, .messageDelta "end_turn" 5]
    (by decide)

/-- An all-chunk stream is written as one data frame per chunk followed by
the `[DONE]` marker, from any iteration index, when the context is never
cancelled. -/
theorem streamResponseWrites_chunks (chunks : List StreamChunk) :
    ∀ i, streamResponseWrites (fun _ => false) (chunks.map .chunk) i
      = chunks.map .dataChunk ++ [.raw "[DONE]"] := by
  induction chunks with
  | nil => intro i; simp [streamResponseWrites]
  | cons c cs ih => intro i; simp [streamResponseWrites, ih]

/-- A stream yielding an error after a chunk-only prefix is written as the
prefix's data frames, then `event: error` and the envelope, and nothing
else, from any iteration index. -/
theorem streamResponseWrites_error (err : StreamItem) (env : ErrorEnvelope)
    (he : err.errEnvelope? = some env) (suffix : List StreamItem) :
    ∀ (pre : List StreamChunk) (i : Nat),
      streamResponseWrites (fun _ => false) (pre.map .chunk ++ err :: suffix) i
        = pre.map .dataChunk ++ [.event "error", .dataError env] := by
  intro pre
  induction pre with
  | nil =>
      intro i
      cases err with
      | chunk c => simp [StreamItem.errEnvelope?] at he
      | errResponse e =>
          simp only [StreamItem.errEnvelope?, Option.some.injEq] at he
          simp [streamResponseWrites, he]
      | errOther msg =>
          obtain ⟨m, t⟩ := env
          simp only [StreamItem.errEnvelope?, Option.some.injEq, ErrorEnvelope.mk.injEq] at he
          obtain ⟨h1, h2⟩ := he
          subst h1; subst h2
          simp [streamResponseWrites]
  | cons c cs ih => intro i; simp [streamResponseWrites, ih]

/-- C8: in streaming mode with an uncancelled context, an iterator error
after the SSE stream has started produces exactly one `event: error`
followed by the envelope's data frame with no `[DONE]` ever written, and
an error-free iteration produces the chunks' data frames followed by the
`data: [DONE]` frame. -/
theorem streamResponse_spec :
    (∀ (pre : List StreamChunk) (err : StreamItem) (env : ErrorEnvelope)
        (suffix : List StreamItem),
        err.errEnvelope? = some env →
        streamResponseWrites (fun _ => false) (pre.map .chunk ++ err :: suffix) 0
            = pre.map .dataChunk ++ [.event "error", .dataError env] ∧
        SSEWrite.raw "[DONE]"
            ∉ streamResponseWrites (fun _ => false) (pre.map .chunk ++ err :: suffix) 0 ∧
        (streamResponseWrites (fun _ => false) (pre.map .chunk ++ err :: suffix) 0).count
            (SSEWrite.event "error") = 1) ∧
    (∀ chunks : List StreamChunk,
        streamResponseWrites (fun _ => false) (chunks.map .chunk) 0
          = chunks.map .dataChunk ++ [.raw "[DONE]"]) := by
  constructor
  · intro pre err env suffix he
    have heq := streamResponseWrites_error err env he suffix pre 0
    refine ⟨heq, ?_, ?_⟩
    · rw [heq]
      simp
    · rw [heq, List.count_append]
      have hz : (pre.map SSEWrite.dataChunk).count (SSEWrite.event "error") = 0 := by
        rw [List.count_eq_zero]
        simp
      rw [hz]
      rfl
  · intro chunks
    exact streamResponseWrites_chunks chunks 0

/-- Witness for C8: one chunk then an `overloaded`-style envelope error —
the writes are the chunk frame, the error event, and the envelope, with no
`[DONE]`. -/
theorem streamResponse_spec_witness :
    streamResponseWrites (fun _ => false)
        (([⟨some "assistant", Option.none, [], Option.none, Option.none⟩] :
            List StreamChunk).map .chunk
          ++ StreamItem.errResponse ⟨"busy", "server_error"⟩ :: []) 0
        = ([⟨some "assistant", Option.none, [], Option.none, Option.none⟩] :
            List StreamChunk).map .dataChunk
          ++ [.event "error", .dataError ⟨"busy", "server_error"⟩] ∧
    SSEWrite.raw "[DONE]"
        ∉ streamResponseWrites (fun _ => false)
            (([⟨some "assistant", Option.none, [], Option.none, Option.none⟩] :
                List StreamChunk).map .chunk
              ++ StreamItem.errResponse ⟨"busy", "server_error"⟩ :: []) 0 ∧
    (streamResponseWrites (fun _ => false)
        (([⟨some "assistant", Option.none, [], Option.none, Option.none⟩] :
            List StreamChunk).map .chunk
          ++ StreamItem.errResponse ⟨"busy", "server_error"⟩ :: []) 0).count
        (SSEWrite.event "error") = 1 :=
  streamResponse_spec.1
    [⟨some "assistant", Option.none, [], Option.none, Option.none⟩]
    (StreamItem.errResponse ⟨"busy", "server_error"⟩)
    ⟨"busy", "server_error"⟩ [] rfl

end Claudine
